import Mathlib

/-!
Verification development for the 3d-quotes repository: a shallow embedding of
the mesh-analysis and pricing engine together with the frontend validation
utilities, and theorems settling the specification claims against it.

Conventions: floating-point coordinates and currency amounts are embedded as
rationals; byte buffers as lists of naturals; JavaScript Date values as
integer timestamps.  Backend services (stl_processor.py, pricing_calculator.py)
are not present in the repository snapshot, so their behaviour is modelled
from the specification where noted; all frontend TypeScript under
frontend/src is embedded directly from the source.
-/

namespace ThreeDQuotes

/-! ## Geometry Analyzer (modelled from the spec)

Modelled from the spec: backend/services/stl_processor.py is not in the
repository snapshot.  The spec prescribes signed tetrahedron decomposition:
for each triangle (A, B, C) accumulate (A dot (B cross C)) / 6 and report the
absolute value of the sum. -/

/-- A 3-D vector with rational coordinates (embedding of double precision). -/
structure Vec3 where
  x : ℚ
  y : ℚ
  z : ℚ
deriving DecidableEq

/-- Dot product of two vectors. -/
def dotV (a b : Vec3) : ℚ := a.x * b.x + a.y * b.y + a.z * b.z

/-- Cross product of two vectors. -/
def crossV (a b : Vec3) : Vec3 :=
  ⟨a.y * b.z - a.z * b.y, a.z * b.x - a.x * b.z, a.x * b.y - a.y * b.x⟩

/-- A triangle: three vertices, no identity, immutable once parsed. -/
structure Triangle where
  a : Vec3
  b : Vec3
  c : Vec3
deriving DecidableEq

/-- Signed volume of the tetrahedron formed by a triangle and the origin,
as prescribed by the spec: v = (A dot (B cross C)) / 6. -/
def signedTetVolume (t : Triangle) : ℚ := dotV t.a (crossV t.b t.c) / 6

/-- Raw (signed) mesh volume: sum of the signed tetrahedron volumes. -/
def rawMeshVolume (m : List Triangle) : ℚ := (m.map signedTetVolume).sum

/-- Reported mesh volume: absolute value of the raw signed sum. -/
def meshVolume (m : List Triangle) : ℚ := |rawMeshVolume m|

/-- Reversing the winding of one triangle: (A, B, C) becomes (A, C, B). -/
def reverseWinding (t : Triangle) : Triangle := ⟨t.a, t.c, t.b⟩

lemma signedTetVolume_reverseWinding (t : Triangle) :
    signedTetVolume (reverseWinding t) = -signedTetVolume t := by
  cases t with
  | mk a b c =>
    simp only [signedTetVolume, reverseWinding, dotV, crossV]
    ring

lemma rawMeshVolume_reverse (m : List Triangle) :
    rawMeshVolume (m.map reverseWinding) = -rawMeshVolume m := by
  induction m with
  | nil => simp [rawMeshVolume]
  | cons t rest ih =>
    simp only [rawMeshVolume, List.map_cons, List.sum_cons] at ih ⊢
    rw [signedTetVolume_reverseWinding, ih]
    ring

/-! ## Frontend validation utilities (frontend/src/utils/validators.ts) -/

/-- Embedding of the TypeScript ValidationResult interface. -/
structure ValidationResult where
  isValid : Bool
  errors : List String
deriving DecidableEq

/-- A browser File as the validators see it: a name and a byte size. -/
structure JsFile where
  name : String
  size : ℕ
deriving DecidableEq

/-- Lower-cased characters of a string (file.name.toLowerCase()). -/
def lowerChars (s : String) : List Char := s.data.map Char.toLower

/-- Check for the .stl extension, case-insensitively, as in
file.name.toLowerCase().endsWith(.stl). -/
def hasSTLExtension (s : String) : Bool :=
  List.isSuffixOf (String.data ".stl") (lowerChars s)

/-- Maximum upload size in bytes: 50 * 1024 * 1024 (50MB). -/
def maxSTLFileSize : ℕ := 50 * 1024 * 1024

/-- Embedding of validateSTLFile: extension check, 50MB size cap, and
non-empty check, accumulating error strings. -/
def validateSTLFile (file : JsFile) : ValidationResult :=
  let errors : List String :=
    (if hasSTLExtension file.name then []
     else ["File must be an STL file (.stl extension)"]) ++
    (if file.size > maxSTLFileSize then ["File size must be less than 50MB"]
     else []) ++
    (if file.size = 0 then ["File cannot be empty"] else [])
  ⟨errors.isEmpty, errors⟩

/-- Per-file error line pushed by validateMultipleSTLFiles. -/
def fileErrorLine (index : ℕ) (file : JsFile) : String :=
  "File " ++ toString (index + 1) ++ " (" ++ file.name ++ "): " ++
    String.intercalate ", " (validateSTLFile file).errors

/-- Names occurring at an index other than their first occurrence, as in
filenames.filter((name, index) => filenames.indexOf(name) !== index). -/
def duplicateNames (filenames : List String) : List String :=
  (filenames.enum.filter
    (fun p => List.indexOf p.2 filenames ≠ p.1)).map Prod.snd

/-- Embedding of validateMultipleSTLFiles: at-least-one check, at-most-ten
check, per-file validation, and duplicate-filename detection. -/
def validateMultipleSTLFiles (files : List JsFile) : ValidationResult :=
  let errors : List String :=
    (if files.length = 0 then ["At least one file is required"] else []) ++
    (if files.length > 10 then ["Maximum 10 files allowed"] else []) ++
    (files.enum.filterMap
      (fun p => if (validateSTLFile p.2).isValid then none
                else some (fileErrorLine p.1 p.2))) ++
    (let dups := duplicateNames (files.map JsFile.name)
     if dups.isEmpty then []
     else ["Duplicate filenames: " ++ String.intercalate ", " dups])
  ⟨errors.isEmpty, errors⟩

/-- Embedding of validateQuantity: a quantity (a JS number, embedded as a
rational) must be an integer, at least 1, and at most 1000. -/
def validateQuantity (quantity : ℚ) : ValidationResult :=
  let errors : List String :=
    (if ¬(quantity.den = 1) ∨ quantity < 1
     then ["Quantity must be a positive integer"] else []) ++
    (if quantity > 1000 then ["Quantity cannot exceed 1000"] else [])
  ⟨errors.isEmpty, errors⟩

/-- The material identifiers accepted by validateMaterial. -/
def validMaterials : List String := ["PA12_GREY", "PA12_BLACK", "PA12_GB"]

/-- Embedding of validateMaterial: required, then membership in the accepted
material list. -/
def validateMaterial (material : String) : ValidationResult :=
  let errors : List String :=
    if material = "" then ["Material selection is required"]
    else if ¬ validMaterials.contains material
    then ["Invalid material selection"] else []
  ⟨errors.isEmpty, errors⟩

/-- The MaterialRate table from backend/.env.example: PA12_GREY at 0.50,
PA12_BLACK at 0.55 and PA12_GB at 0.60 dollars per cubic centimetre. -/
def materialRates (material : String) : Option ℚ :=
  if material = "PA12_GREY" then some (50 / 100)
  else if material = "PA12_BLACK" then some (55 / 100)
  else if material = "PA12_GB" then some (60 / 100)
  else none

/-- Embedding of the FileMaterialSelector effect (MaterialSelector.tsx lines
182-192): the parent is updated with the chosen material and quantity only
when both validations pass; otherwise only an error is shown. -/
def fileSelectorUpdate (material : String) (quantity : ℚ) :
    Option (String × ℚ) :=
  if (validateQuantity quantity).isValid && (validateMaterial material).isValid
  then some (material, quantity) else none

/-! ## Pricing Calculator (modelled from the spec)

Modelled from the spec: backend/services/pricing_calculator.py is not in the
repository snapshot.  The spec prescribes, per line item,
unit_price = volume_cm3 * rate(material) * (1 + markup) with
volume_cm3 = volume_mm3 / 1000 and total_price = unit_price * quantity,
rounding every currency value to 2 decimal places half-up only at the point
of producing unit_price and total_price (never rounding intermediates: the
worked example unit_price 2.88, total_price 5.75 forces total_price to be
produced from the unrounded unit price), subtotal as the sum of total_price
floored at the minimum order amount, a shipping tier from ascending
(threshold, cost) pairs, total = floored subtotal + shipping cost, and the
errors EmptyOrder, InvalidQuantity and UnknownMaterial. -/

/-- Round a currency value to 2 decimal places, half-up. -/
def round2 (q : ℚ) : ℚ := (⌊q * 100 + 1 / 2⌋ : ℚ) / 100

/-- Structured pricing errors from the spec error taxonomy. -/
inductive PricingError where
  | EmptyOrder
  | InvalidQuantity
  | UnknownMaterial
deriving DecidableEq

/-- Pricing configuration: material rates, markup, minimum order, and
shipping tiers as ascending (threshold, cost) pairs with the largest tier
cost applying beyond every threshold. -/
structure PricingConfig where
  rates : String → Option ℚ
  markup : ℚ
  minimumOrder : ℚ
  tiers : List (ℚ × ℚ)
  largestTierCost : ℚ

/-- One pricing request line: mesh volume in cubic millimetres, the
bounding-box volume used for the shipping size metric, a material identifier
and an integer quantity. -/
structure QuoteItemInput where
  volumeMm3 : ℚ
  bboxVolume : ℚ
  material : String
  quantity : ℤ
deriving DecidableEq

/-- A priced line item. -/
structure LineItem where
  volumeMm3 : ℚ
  material : String
  quantity : ℤ
  unitPrice : ℚ
  totalPrice : ℚ
deriving DecidableEq

/-- A priced quote: line items, floored subtotal, shipping cost and total. -/
structure Quote where
  lineItems : List LineItem
  subtotal : ℚ
  shippingCost : ℚ
  total : ℚ
deriving DecidableEq

/-- Price one line item; fails (with none) when the material has no rate
entry.  Currency rounding is applied exactly when producing unitPrice and
totalPrice, from the unrounded intermediate value. -/
def priceItem (cfg : PricingConfig) (it : QuoteItemInput) : Option LineItem :=
  (cfg.rates it.material).map (fun rate =>
    let rawUnit := it.volumeMm3 / 1000 * rate * (1 + cfg.markup)
    { volumeMm3 := it.volumeMm3
      material := it.material
      quantity := it.quantity
      unitPrice := round2 rawUnit
      totalPrice := round2 (rawUnit * (it.quantity : ℚ)) })

/-- Price every line item, failing when any material is unknown. -/
def priceItems (cfg : PricingConfig) : List QuoteItemInput → Option (List LineItem)
  | [] => some []
  | it :: rest =>
    match priceItem cfg it with
    | none => none
    | some li => (priceItems cfg rest).map (fun lis => li :: lis)

/-- Shipping cost: the first tier whose threshold the aggregate does not
exceed; the largest tier cost when the aggregate exceeds every threshold. -/
def shippingCostFor (tiers : List (ℚ × ℚ)) (largest : ℚ) (aggregate : ℚ) : ℚ :=
  match tiers with
  | [] => largest
  | (threshold, cost) :: rest =>
    if aggregate ≤ threshold then cost
    else shippingCostFor rest largest aggregate

/-- The Pricing Calculator: validates the order, prices every line item,
sums the subtotal, floors it at the minimum order amount, derives the
shipping cost from the aggregate bounding-box volume and produces a Quote. -/
def priceQuote (cfg : PricingConfig) (items : List QuoteItemInput) :
    Except PricingError Quote :=
  if items.isEmpty then .error .EmptyOrder
  else if items.any (fun it => it.quantity < 1) then .error .InvalidQuantity
  else
    match priceItems cfg items with
    | none => .error .UnknownMaterial
    | some lineItems =>
      let rawSubtotal := (lineItems.map LineItem.totalPrice).sum
      let subtotal := max rawSubtotal cfg.minimumOrder
      let aggregate := (items.map QuoteItemInput.bboxVolume).sum
      let shipping := shippingCostFor cfg.tiers cfg.largestTierCost aggregate
      .ok { lineItems := lineItems
            subtotal := subtotal
            shippingCost := shipping
            total := subtotal + shipping }

lemma priceItems_eq_none_iff (cfg : PricingConfig) (items : List QuoteItemInput) :
    priceItems cfg items = none ↔ ∃ it ∈ items, cfg.rates it.material = none := by
  induction items with
  | nil => simp [priceItems]
  | cons it rest ih =>
    cases hr : cfg.rates it.material with
    | none =>
      have hpi : priceItem cfg it = none := by simp [priceItem, hr]
      simp only [priceItems, hpi]
      constructor
      · intro _
        exact ⟨it, List.mem_cons_self it rest, hr⟩
      · intro _
        trivial
    | some r =>
      have hpi : ∃ li, priceItem cfg it = some li := by simp [priceItem, hr]
      obtain ⟨li, hli⟩ := hpi
      simp only [priceItems, hli]
      constructor
      · intro hmap
        cases hrest : priceItems cfg rest with
        | none =>
          obtain ⟨x, hx, hxn⟩ := ih.mp hrest
          exact ⟨x, List.mem_cons_of_mem _ hx, hxn⟩
        | some lis =>
          rw [hrest] at hmap
          simp at hmap
      · rintro ⟨x, hx, hxn⟩
        rcases List.mem_cons.mp hx with rfl | hx2
        · rw [hxn] at hr
          exact Option.noConfusion hr
        · rw [ih.mpr ⟨x, hx2, hxn⟩]
          rfl

lemma priceQuote_ok_inv {cfg : PricingConfig} {items : List QuoteItemInput}
    {q : Quote} (h : priceQuote cfg items = .ok q) :
    items.isEmpty = false ∧
    items.any (fun it => it.quantity < 1) = false ∧
    ∃ lineItems, priceItems cfg items = some lineItems ∧
      q.lineItems = lineItems ∧
      q.subtotal = max ((lineItems.map LineItem.totalPrice).sum) cfg.minimumOrder ∧
      q.shippingCost = shippingCostFor cfg.tiers cfg.largestTierCost
          ((items.map QuoteItemInput.bboxVolume).sum) ∧
      q.total = q.subtotal + q.shippingCost := by
  unfold priceQuote at h
  cases h1 : items.isEmpty with
  | true => simp [h1] at h
  | false =>
    cases h2 : items.any (fun it => it.quantity < 1) with
    | true => simp [h1, h2] at h
    | false =>
      simp only [h1, h2, Bool.false_eq_true, if_false] at h
      cases hpi : priceItems cfg items with
      | none => simp [hpi] at h
      | some lineItems =>
        simp only [hpi] at h
        have hq : q = { lineItems := lineItems
                        subtotal := max ((lineItems.map LineItem.totalPrice).sum)
                          cfg.minimumOrder
                        shippingCost := shippingCostFor cfg.tiers
                          cfg.largestTierCost
                          ((items.map QuoteItemInput.bboxVolume).sum)
                        total := max ((lineItems.map LineItem.totalPrice).sum)
                            cfg.minimumOrder +
                          shippingCostFor cfg.tiers cfg.largestTierCost
                            ((items.map QuoteItemInput.bboxVolume).sum) } := by
          cases h
          rfl
        refine ⟨rfl, rfl, lineItems, rfl, ?_, ?_, ?_, ?_⟩ <;> rw [hq]

/-! ### Worked example from the spec

A 1000 mm3 (1 cm3) part, material rate 2.50 dollars per cm3, markup 15
percent, quantity 2, minimum order 20 dollars. -/

/-- Pricing configuration of the worked example in the spec. -/
def exampleConfig : PricingConfig :=
  { rates := fun m => if m = "PA12" then some (5 / 2) else none
    markup := 15 / 100
    minimumOrder := 20
    tiers := [(100, 5), (500, 10)]
    largestTierCost := 15 }

/-- The worked example line: 1000 mm3 volume, quantity 2. -/
def exampleItem : QuoteItemInput :=
  { volumeMm3 := 1000, bboxVolume := 1000, material := "PA12", quantity := 2 }

/-- The quote the worked example should produce: unit price 2.88, line total
5.75, subtotal floored to the 20 dollar minimum. -/
def examplePricedQuote : Quote :=
  { lineItems := [{ volumeMm3 := 1000, material := "PA12", quantity := 2,
                    unitPrice := 288 / 100, totalPrice := 575 / 100 }]
    subtotal := 20
    shippingCost := 15
    total := 35 }

/-- An example line with an invalid quantity. -/
def badQuantityItem : QuoteItemInput :=
  { volumeMm3 := 1000, bboxVolume := 1000, material := "PA12", quantity := 0 }

/-- An example line whose material has no rate entry. -/
def unknownMaterialItem : QuoteItemInput :=
  { volumeMm3 := 1000, bboxVolume := 1000, material := "NYLON", quantity := 1 }

/-! ## Quote expiry (frontend/src/components/QuoteDisplay.tsx lines 81-82)

Timestamps are embedded as integers (milliseconds since the epoch, the
comparison JavaScript Date objects reduce to). -/

/-- Embedding of isExpired = quote.expires_at && new Date(quote.expires_at)
less than new Date(): expired exactly when an expiry is present and lies
strictly in the past at read time. -/
def quoteIsExpired (expiresAt : Option ℤ) (now : ℤ) : Bool :=
  match expiresAt with
  | none => false
  | some e => e < now

/-- Embedding of isValidQuote = quote.is_valid && !isExpired. -/
def quoteIsValid (validFlag : Bool) (expiresAt : Option ℤ) (now : ℤ) : Bool :=
  validFlag && !(quoteIsExpired expiresAt now)

/-! ## Mesh Parser (modelled from the spec)

Modelled from the spec: the backend STL parsing code is not in the
repository snapshot.  The spec requires rejecting empty buffers and buffers
below a minimum viable header size as MalformedInput, and requires the
declared triangle count to match the payload length for the fixed-record
binary encoding (80-byte header, 4-byte little-endian count, 50-byte
records).  Decoding of a 4-byte group into a coordinate is floating-point
work outside the shallow embedding, so the parser is parameterized by the
decode function; every structural decision is independent of it. -/

/-- Structured parser error from the spec error taxonomy. -/
inductive ParseError where
  | MalformedInput
deriving DecidableEq

/-- Minimum viable binary STL size: 80-byte header plus 4-byte count. -/
def minStlHeaderSize : ℕ := 84

/-- Little-endian 32-bit value from four bytes. -/
def le32 (b0 b1 b2 b3 : ℕ) : ℕ := b0 + 256 * (b1 + 256 * (b2 + 256 * b3))

/-- One vertex of a 50-byte triangle record: three 4-byte coordinates
starting at the given offset. -/
def vertexAt (decode : List ℕ → ℚ) (record : List ℕ) (off : ℕ) : Vec3 :=
  ⟨decode ((record.drop off).take 4),
    decode ((record.drop (off + 4)).take 4),
    decode ((record.drop (off + 8)).take 4)⟩

/-- One triangle from a 50-byte record: 12 bytes of normal, then three
vertices of 12 bytes each. -/
def parseTriangleRecord (decode : List ℕ → ℚ) (record : List ℕ) : Triangle :=
  ⟨vertexAt decode record 12, vertexAt decode record 24,
    vertexAt decode record 36⟩

/-- Parse the given number of consecutive 50-byte triangle records. -/
def parseRecords (decode : List ℕ → ℚ) (bytes : List ℕ) : ℕ → List Triangle
  | 0 => []
  | n + 1 =>
    parseTriangleRecord decode (bytes.take 50) ::
      parseRecords decode (bytes.drop 50) n

/-- The Mesh Parser: a byte buffer yields a triangle list or MalformedInput.
Buffers below the minimum viable header size are rejected, as are buffers
whose declared triangle count does not match the payload length. -/
def parseSTL (decode : List ℕ → ℚ) (buf : List ℕ) :
    Except ParseError (List Triangle) :=
  if buf.length < minStlHeaderSize then .error .MalformedInput
  else
    let n := le32 (buf.getD 80 0) (buf.getD 81 0) (buf.getD 82 0) (buf.getD 83 0)
    if buf.length ≠ minStlHeaderSize + 50 * n then .error .MalformedInput
    else .ok (parseRecords decode (buf.drop 84) n)

/-! ## Constraint Validator (modelled from the spec)

Modelled from the spec: the backend constraint validation code is not in the
repository snapshot.  The spec requires ExceedsBuildVolume when any
bounding-box dimension (max minus min per axis) exceeds the configured
maximum for that axis with no auto-rotation attempted, EmptyGeometry when
the triangle count or volume is zero, and non-watertightness surfaced only
as a warning in the result. -/

/-- Structured constraint errors from the spec error taxonomy. -/
inductive ConstraintError where
  | ExceedsBuildVolume
  | EmptyGeometry
deriving DecidableEq

/-- A build-volume limit triple (axis maxima in mm). -/
structure BuildVolume where
  maxX : ℚ
  maxY : ℚ
  maxZ : ℚ
deriving DecidableEq

/-- The HP MJF build volume from backend/.env.example: 380 x 284 x 380 mm. -/
def hpMjfBuildVolume : BuildVolume := ⟨380, 284, 380⟩

/-- Derived mesh properties: volume, axis-aligned bounding box,
watertightness verdict and triangle count. -/
structure MeshProperties where
  volume : ℚ
  minX : ℚ
  minY : ℚ
  minZ : ℚ
  maxX : ℚ
  maxY : ℚ
  maxZ : ℚ
  isWatertight : Bool
  triangleCount : ℕ
deriving DecidableEq

/-- The Constraint Validator: pass (carrying the watertightness flag as a
diagnostic) or a structured failure reason. -/
def validateConstraints (limits : BuildVolume) (p : MeshProperties) :
    Except ConstraintError Bool :=
  if p.maxX - p.minX > limits.maxX ∨ p.maxY - p.minY > limits.maxY ∨
      p.maxZ - p.minZ > limits.maxZ
  then .error .ExceedsBuildVolume
  else if p.triangleCount = 0 ∨ p.volume = 0 then .error .EmptyGeometry
  else .ok p.isWatertight

/-! ## Upload file list (frontend/src/hooks/useFileUpload.ts)

The id generator (Date.now plus Math.random in the source) is passed in as a
function of the position in the new batch, keeping the embedding
deterministic; no claim depends on the generated ids. -/

/-- Embedding of the FileWithMetadata interface. -/
structure FileWithMetadata where
  file : JsFile
  id : String
  material : String
  quantity : ℚ
deriving DecidableEq

/-- The state addFiles produces: the file list and the validation errors. -/
structure AddFilesResult where
  files : List FileWithMetadata
  validationErrors : List String
deriving DecidableEq

/-- New file metadata: default material PA12_GREY and default quantity 1. -/
def mkFileMetadata (idGen : ℕ → String) (newFiles : List JsFile) :
    List FileWithMetadata :=
  newFiles.enum.map (fun p => ⟨p.2, idGen p.1, "PA12_GREY", 1⟩)

/-- Embedding of useFileUpload.addFiles: validate the new batch, then reject
when the combined list would exceed 10 files or when a new filename repeats
an existing one; only a fully accepted batch is appended. -/
def addFiles (idGen : ℕ → String) (prevFiles : List FileWithMetadata)
    (newFiles : List JsFile) : AddFilesResult :=
  let validation := validateMultipleSTLFiles newFiles
  if validation.isValid = false then ⟨prevFiles, validation.errors⟩
  else
    let newMeta := mkFileMetadata idGen newFiles
    if prevFiles.length + newMeta.length > 10 then
      ⟨prevFiles, ["Maximum 10 files allowed"]⟩
    else
      let existingNames := prevFiles.map (fun f => f.file.name)
      let duplicates := newMeta.filter
        (fun f => existingNames.contains f.file.name)
      if duplicates.isEmpty = false then
        ⟨prevFiles, ["Duplicate files: " ++
          String.intercalate ", " (duplicates.map (fun f => f.file.name))]⟩
      else ⟨prevFiles ++ newMeta, []⟩

/-- An oversized mesh: the x extent (400 mm) exceeds the 380 mm HP MJF
limit. -/
def oversizedMesh : MeshProperties :=
  { volume := 1000, minX := 0, minY := 0, minZ := 0,
    maxX := 400, maxY := 100, maxZ := 100,
    isWatertight := true, triangleCount := 12 }

lemma validateMultipleSTLFiles_errors_isEmpty (files : List JsFile) :
    (validateMultipleSTLFiles files).errors.isEmpty =
      (validateMultipleSTLFiles files).isValid := rfl

lemma nodup_of_duplicateNames_nil (names : List String)
    (h : duplicateNames names = []) : names.Nodup := by
  unfold duplicateNames at h
  rw [List.map_eq_nil_iff, List.filter_eq_nil_iff] at h
  rw [List.nodup_iff_injective_get]
  rintro ⟨i, hi⟩ ⟨j, hj⟩ hij
  have hgi : i < names.enum.length := by simpa [List.enum_length] using hi
  have hgj : j < names.enum.length := by simpa [List.enum_length] using hj
  have hmi : (i, names.get ⟨i, hi⟩) ∈ names.enum := by
    have hge := List.getElem_enum names i hgi
    have hx : names.enum[i] = (i, names.get ⟨i, hi⟩) := by
      rw [hge]
      simp [List.get_eq_getElem]
    rw [← hx]
    exact List.getElem_mem hgi
  have hmj : (j, names.get ⟨j, hj⟩) ∈ names.enum := by
    have hge := List.getElem_enum names j hgj
    have hx : names.enum[j] = (j, names.get ⟨j, hj⟩) := by
      rw [hge]
      simp [List.get_eq_getElem]
    rw [← hx]
    exact List.getElem_mem hgj
  have e1 := h _ hmi
  have e2 := h _ hmj
  simp only [ne_eq, decide_not, Bool.not_eq_true, decide_eq_false_iff_not,
    not_not, Bool.not_eq_false', decide_eq_true_eq] at e1 e2
  apply Fin.ext
  show i = j
  rw [← e1, hij, e2]

lemma mkFileMetadata_map_name (idGen : ℕ → String) (fs : List JsFile) :
    (mkFileMetadata idGen fs).map (fun f => f.file.name) =
      fs.map JsFile.name := by
  unfold mkFileMetadata
  rw [List.map_map]
  have hc : ((fun f : FileWithMetadata => f.file.name) ∘
      fun p : ℕ × JsFile =>
        (⟨p.2, idGen p.1, "PA12_GREY", 1⟩ : FileWithMetadata)) =
      (JsFile.name ∘ Prod.snd) := rfl
  rw [hc, ← List.map_map, List.enum_map_snd]

lemma mkFileMetadata_length (idGen : ℕ → String) (fs : List JsFile) :
    (mkFileMetadata idGen fs).length = fs.length := by
  unfold mkFileMetadata
  rw [List.length_map, List.enum_length]

lemma validateMultipleSTLFiles_valid_facts (files : List JsFile)
    (h : (validateMultipleSTLFiles files).isValid = true) :
    files.length ≤ 10 ∧ (files.map JsFile.name).Nodup ∧
      ∀ f ∈ files, (validateSTLFile f).isValid = true := by
  simp only [validateMultipleSTLFiles, List.isEmpty_iff,
    List.append_eq_nil] at h
  obtain ⟨⟨⟨h1, h2⟩, h3⟩, h4⟩ := h
  refine ⟨?_, ?_, ?_⟩
  · by_contra hgt
    rw [if_pos (not_le.mp hgt)] at h2
    exact absurd h2 (by simp)
  · by_cases hd : duplicateNames (files.map JsFile.name) = []
    · exact nodup_of_duplicateNames_nil _ hd
    · rw [if_neg (by simpa [List.isEmpty_iff] using hd)] at h4
      exact absurd h4 (by simp)
  · intro f hf
    rw [List.filterMap_eq_nil_iff] at h3
    obtain ⟨⟨i, hi⟩, hget⟩ := List.mem_iff_get.mp hf
    have hgi : i < files.enum.length := by simpa [List.enum_length] using hi
    have hm : (i, f) ∈ files.enum := by
      have hge := List.getElem_enum files i hgi
      have hx : files.enum[i] = (i, f) := by
        rw [hge]
        simp [List.get_eq_getElem] at hget
        rw [hget]
      rw [← hx]
      exact List.getElem_mem hgi
    have hfm := h3 _ hm
    by_contra hv
    rw [Bool.not_eq_true] at hv
    simp [hv] at hfm

end ThreeDQuotes

/-- C3: the reported volume is the absolute value of the summed signed
tetrahedron volumes, so reversing the winding of every triangle leaves the
reported volume unchanged, and a mesh with zero triangles yields volume 0. -/
theorem C3_volume_winding_invariant :
    (∀ m : List ThreeDQuotes.Triangle,
      ThreeDQuotes.meshVolume (m.map ThreeDQuotes.reverseWinding) =
        ThreeDQuotes.meshVolume m) ∧
    ThreeDQuotes.meshVolume [] = 0 := by
  constructor
  · intro m
    simp only [ThreeDQuotes.meshVolume, ThreeDQuotes.rawMeshVolume_reverse, abs_neg]
  · simp [ThreeDQuotes.meshVolume, ThreeDQuotes.rawMeshVolume]

/-- C1: for every line item, unit_price is volume_cm3 times the material
rate times (1 + markup) with volume_cm3 = volume_mm3 / 1000, total_price is
unit_price times quantity, each rounded to 2 decimal places half-up exactly
at the point of production (from the unrounded intermediate), and the worked
example prices at 2.88 per unit and 5.75 for quantity 2. -/
theorem C1_line_item_pricing :
    (∀ (cfg : ThreeDQuotes.PricingConfig) (it : ThreeDQuotes.QuoteItemInput)
      (rate : ℚ), cfg.rates it.material = some rate →
      ThreeDQuotes.priceItem cfg it = some
        { volumeMm3 := it.volumeMm3
          material := it.material
          quantity := it.quantity
          unitPrice := ThreeDQuotes.round2
            (it.volumeMm3 / 1000 * rate * (1 + cfg.markup))
          totalPrice := ThreeDQuotes.round2
            (it.volumeMm3 / 1000 * rate * (1 + cfg.markup) * (it.quantity : ℚ)) }) ∧
    ThreeDQuotes.priceQuote ThreeDQuotes.exampleConfig [ThreeDQuotes.exampleItem] =
      .ok ThreeDQuotes.examplePricedQuote := by
  constructor
  · intro cfg it rate h
    simp [ThreeDQuotes.priceItem, h]
  · simp only [ThreeDQuotes.priceQuote, ThreeDQuotes.priceItems,
      ThreeDQuotes.priceItem, ThreeDQuotes.exampleConfig, ThreeDQuotes.exampleItem,
      ThreeDQuotes.round2, ThreeDQuotes.shippingCostFor,
      ThreeDQuotes.examplePricedQuote]
    norm_num

theorem C1_line_item_pricing_witness :
    ThreeDQuotes.priceItem ThreeDQuotes.exampleConfig ThreeDQuotes.exampleItem =
      some { volumeMm3 := ThreeDQuotes.exampleItem.volumeMm3
             material := ThreeDQuotes.exampleItem.material
             quantity := ThreeDQuotes.exampleItem.quantity
             unitPrice := ThreeDQuotes.round2
               (ThreeDQuotes.exampleItem.volumeMm3 / 1000 * (5 / 2) *
                 (1 + ThreeDQuotes.exampleConfig.markup))
             totalPrice := ThreeDQuotes.round2
               (ThreeDQuotes.exampleItem.volumeMm3 / 1000 * (5 / 2) *
                 (1 + ThreeDQuotes.exampleConfig.markup) *
                 (ThreeDQuotes.exampleItem.quantity : ℚ)) } :=
  C1_line_item_pricing.1 ThreeDQuotes.exampleConfig ThreeDQuotes.exampleItem
    (5 / 2) (by simp [ThreeDQuotes.exampleConfig, ThreeDQuotes.exampleItem])

/-- C2: for every successfully priced order, the reported subtotal is the sum
of the line totals floored at the configured minimum order amount: it is never
below the minimum, it equals exactly the minimum whenever the raw sum falls
short (the order is not rejected), and the quote total is the floored
subtotal plus the shipping cost. -/
theorem C2_minimum_order_floor :
    ∀ (cfg : ThreeDQuotes.PricingConfig)
      (items : List ThreeDQuotes.QuoteItemInput) (q : ThreeDQuotes.Quote),
      ThreeDQuotes.priceQuote cfg items = .ok q →
      q.subtotal = max ((q.lineItems.map ThreeDQuotes.LineItem.totalPrice).sum)
          cfg.minimumOrder ∧
      cfg.minimumOrder ≤ q.subtotal ∧
      ((q.lineItems.map ThreeDQuotes.LineItem.totalPrice).sum <
          cfg.minimumOrder → q.subtotal = cfg.minimumOrder) ∧
      q.total = q.subtotal + q.shippingCost := by
  intro cfg items q h
  obtain ⟨-, -, lineItems, -, hli, hsub, -, htot⟩ :=
    ThreeDQuotes.priceQuote_ok_inv h
  subst hli
  refine ⟨hsub, ?_, ?_, htot⟩
  · rw [hsub]
    exact le_max_right _ _
  · intro hlt
    rw [hsub]
    exact max_eq_right (le_of_lt hlt)

theorem C2_minimum_order_floor_witness :
    ThreeDQuotes.examplePricedQuote.subtotal =
      max ((ThreeDQuotes.examplePricedQuote.lineItems.map
          ThreeDQuotes.LineItem.totalPrice).sum)
        ThreeDQuotes.exampleConfig.minimumOrder ∧
    ThreeDQuotes.exampleConfig.minimumOrder ≤
      ThreeDQuotes.examplePricedQuote.subtotal ∧
    ((ThreeDQuotes.examplePricedQuote.lineItems.map
        ThreeDQuotes.LineItem.totalPrice).sum <
        ThreeDQuotes.exampleConfig.minimumOrder →
      ThreeDQuotes.examplePricedQuote.subtotal =
        ThreeDQuotes.exampleConfig.minimumOrder) ∧
    ThreeDQuotes.examplePricedQuote.total =
      ThreeDQuotes.examplePricedQuote.subtotal +
        ThreeDQuotes.examplePricedQuote.shippingCost :=
  C2_minimum_order_floor ThreeDQuotes.exampleConfig [ThreeDQuotes.exampleItem]
    ThreeDQuotes.examplePricedQuote
    (by
      simp only [ThreeDQuotes.priceQuote, ThreeDQuotes.priceItems,
        ThreeDQuotes.priceItem, ThreeDQuotes.exampleConfig,
        ThreeDQuotes.exampleItem, ThreeDQuotes.round2,
        ThreeDQuotes.shippingCostFor, ThreeDQuotes.examplePricedQuote]
      norm_num)

/-- C4: pricing fails with InvalidQuantity whenever any line quantity is
below 1, every line of a successfully priced order has quantity at least 1,
and the frontend quantity validator rejects quantities below 1 and accepts
only integers at least 1. -/
theorem C4_invalid_quantity :
    (∀ (cfg : ThreeDQuotes.PricingConfig)
      (items : List ThreeDQuotes.QuoteItemInput),
      items ≠ [] → (∃ it ∈ items, it.quantity < 1) →
      ThreeDQuotes.priceQuote cfg items = .error .InvalidQuantity) ∧
    (∀ (cfg : ThreeDQuotes.PricingConfig)
      (items : List ThreeDQuotes.QuoteItemInput) (q : ThreeDQuotes.Quote),
      ThreeDQuotes.priceQuote cfg items = .ok q →
      ∀ it ∈ items, 1 ≤ it.quantity) ∧
    (∀ qty : ℚ, qty < 1 → (ThreeDQuotes.validateQuantity qty).isValid = false) ∧
    (∀ qty : ℚ, (ThreeDQuotes.validateQuantity qty).isValid = true →
      qty.den = 1 ∧ 1 ≤ qty) := by
  refine ⟨?_, ?_, ?_, ?_⟩
  · intro cfg items hne hex
    obtain ⟨it, hit, hq⟩ := hex
    have hempty : items.isEmpty = false := by
      cases items with
      | nil => exact absurd rfl hne
      | cons a t => rfl
    have hany : (items.any fun x => x.quantity < 1) = true := by
      rw [List.any_eq_true]
      exact ⟨it, hit, by simpa using hq⟩
    simp [ThreeDQuotes.priceQuote, hempty, hany]
  · intro cfg items q h it hit
    obtain ⟨-, hany, -⟩ := ThreeDQuotes.priceQuote_ok_inv h
    rw [List.any_eq_false] at hany
    have := hany it hit
    simpa using this
  · intro qty hlt
    simp [ThreeDQuotes.validateQuantity, hlt]
  · intro qty h
    simp only [ThreeDQuotes.validateQuantity, List.isEmpty_eq_true,
      List.append_eq_nil] at h
    obtain ⟨h1, -⟩ := h
    by_cases hden : qty.den = 1
    · refine ⟨hden, ?_⟩
      by_contra hlt
      simp [hden, lt_of_not_le hlt] at h1
    · simp [hden] at h1

theorem C4_invalid_quantity_witness :
    ThreeDQuotes.priceQuote ThreeDQuotes.exampleConfig
      [ThreeDQuotes.badQuantityItem] = .error .InvalidQuantity ∧
    (ThreeDQuotes.validateQuantity 0).isValid = false :=
  ⟨C4_invalid_quantity.1 ThreeDQuotes.exampleConfig
      [ThreeDQuotes.badQuantityItem] (by simp)
      ⟨ThreeDQuotes.badQuantityItem, by simp,
        by simp [ThreeDQuotes.badQuantityItem]⟩,
    C4_invalid_quantity.2.2.1 0 (by norm_num)⟩

/-- C5: pricing fails with UnknownMaterial whenever a line references a
material with no rate entry, every line of a successfully priced order has a
rate entry, and the frontend material validator accepts exactly the
identifiers present in the MaterialRate table of the configuration. -/
theorem C5_unknown_material :
    (∀ (cfg : ThreeDQuotes.PricingConfig)
      (items : List ThreeDQuotes.QuoteItemInput),
      items ≠ [] → (∀ it ∈ items, 1 ≤ it.quantity) →
      (∃ it ∈ items, cfg.rates it.material = none) →
      ThreeDQuotes.priceQuote cfg items = .error .UnknownMaterial) ∧
    (∀ (cfg : ThreeDQuotes.PricingConfig)
      (items : List ThreeDQuotes.QuoteItemInput) (q : ThreeDQuotes.Quote),
      ThreeDQuotes.priceQuote cfg items = .ok q →
      ∀ it ∈ items, (cfg.rates it.material).isSome) ∧
    (∀ m : String, (ThreeDQuotes.validateMaterial m).isValid = true ↔
      (ThreeDQuotes.materialRates m).isSome) := by
  refine ⟨?_, ?_, ?_⟩
  · intro cfg items hne hq hex
    have hempty : items.isEmpty = false := by
      cases items with
      | nil => exact absurd rfl hne
      | cons a t => rfl
    have hany : (items.any fun x => x.quantity < 1) = false := by
      rw [List.any_eq_false]
      intro x hx
      simpa using not_lt.mpr (hq x hx)
    have hnone : ThreeDQuotes.priceItems cfg items = none :=
      (ThreeDQuotes.priceItems_eq_none_iff cfg items).mpr hex
    simp [ThreeDQuotes.priceQuote, hempty, hany, hnone]
  · intro cfg items q h it hit
    obtain ⟨-, -, lineItems, hpi, -⟩ := ThreeDQuotes.priceQuote_ok_inv h
    rw [Option.isSome_iff_ne_none]
    intro hn
    have : ThreeDQuotes.priceItems cfg items = none :=
      (ThreeDQuotes.priceItems_eq_none_iff cfg items).mpr ⟨it, hit, hn⟩
    rw [this] at hpi
    exact Option.noConfusion hpi
  · intro m
    by_cases h0 : m = ""
    · subst h0
      simp [ThreeDQuotes.validateMaterial, ThreeDQuotes.materialRates]
    · by_cases h1 : m = "PA12_GREY"
      · subst h1
        simp [ThreeDQuotes.validateMaterial, ThreeDQuotes.materialRates,
          ThreeDQuotes.validMaterials]
      · by_cases h2 : m = "PA12_BLACK"
        · subst h2
          simp [ThreeDQuotes.validateMaterial, ThreeDQuotes.materialRates,
            ThreeDQuotes.validMaterials]
        · by_cases h3 : m = "PA12_GB"
          · subst h3
            simp [ThreeDQuotes.validateMaterial, ThreeDQuotes.materialRates,
              ThreeDQuotes.validMaterials]
          · simp [ThreeDQuotes.validateMaterial, ThreeDQuotes.materialRates,
              ThreeDQuotes.validMaterials, h0, h1, h2, h3]

theorem C5_unknown_material_witness :
    ThreeDQuotes.priceQuote ThreeDQuotes.exampleConfig
      [ThreeDQuotes.unknownMaterialItem] = .error .UnknownMaterial ∧
    ((ThreeDQuotes.validateMaterial "PA12_GREY").isValid = true ↔
      (ThreeDQuotes.materialRates "PA12_GREY").isSome) :=
  ⟨C5_unknown_material.1 ThreeDQuotes.exampleConfig
      [ThreeDQuotes.unknownMaterialItem] (by simp)
      (by
        intro it hit
        simp only [List.mem_singleton] at hit
        subst hit
        simp [ThreeDQuotes.unknownMaterialItem])
      ⟨ThreeDQuotes.unknownMaterialItem, by simp,
        by simp [ThreeDQuotes.unknownMaterialItem, ThreeDQuotes.exampleConfig]⟩,
    C5_unknown_material.2.2 "PA12_GREY"⟩

/-- C8: whether a priced quote is expired is a pure function of the current
wall-clock time compared against expires_at, evaluated at read time: the
quote is treated as valid exactly when its validity flag is set and the
current time is not past expires_at, and once expired it is never treated as
valid at any later read. -/
theorem C8_expiry_pure_function :
    ∀ (validFlag : Bool) (e now later : ℤ),
      (ThreeDQuotes.quoteIsValid validFlag (some e) now = true ↔
        (validFlag = true ∧ now ≤ e)) ∧
      (ThreeDQuotes.quoteIsExpired (some e) now = true → now ≤ later →
        ThreeDQuotes.quoteIsValid validFlag (some e) later = false) := by
  intro validFlag e now later
  constructor
  · simp only [ThreeDQuotes.quoteIsValid, ThreeDQuotes.quoteIsExpired,
      Bool.and_eq_true, Bool.not_eq_true']
    constructor
    · rintro ⟨hv, hd⟩
      exact ⟨hv, not_lt.mp (by simpa using hd)⟩
    · rintro ⟨hv, hd⟩
      exact ⟨hv, by simpa using not_lt.mpr hd⟩
  · intro hexp hle
    simp only [ThreeDQuotes.quoteIsExpired, decide_eq_true_eq] at hexp
    simp only [ThreeDQuotes.quoteIsValid, ThreeDQuotes.quoteIsExpired,
      Bool.and_eq_false_iff, Bool.not_eq_true', decide_eq_true_eq]
    right
    simpa using lt_of_lt_of_le hexp hle

theorem C8_expiry_pure_function_witness :
    ThreeDQuotes.quoteIsValid true (some 100) 50 = true ∧
    ThreeDQuotes.quoteIsValid true (some 100) 200 = false :=
  ⟨(C8_expiry_pure_function true 100 50 300).1.mpr ⟨rfl, by norm_num⟩,
    (C8_expiry_pure_function true 100 150 200).2 (by decide) (by norm_num)⟩

/-- C9: the upload file list never exceeds 10 entries and never holds two
entries with the same filename; a call to addFiles that would break this, or
whose new batch fails STL validation, leaves the existing list unchanged and
only reports validation errors. -/
theorem C9_upload_list_invariant :
    ∀ (idGen : ℕ → String) (prevFiles : List ThreeDQuotes.FileWithMetadata)
      (newFiles : List ThreeDQuotes.JsFile),
      prevFiles.length ≤ 10 →
      (prevFiles.map (fun f => f.file.name)).Nodup →
      ((ThreeDQuotes.addFiles idGen prevFiles newFiles).files.length ≤ 10 ∧
        ((ThreeDQuotes.addFiles idGen prevFiles newFiles).files.map
          (fun f => f.file.name)).Nodup) ∧
      ((ThreeDQuotes.addFiles idGen prevFiles newFiles).validationErrors ≠ [] →
        (ThreeDQuotes.addFiles idGen prevFiles newFiles).files = prevFiles) ∧
      ((∃ f ∈ newFiles, (ThreeDQuotes.validateSTLFile f).isValid = false) →
        (ThreeDQuotes.addFiles idGen prevFiles newFiles).files = prevFiles ∧
        (ThreeDQuotes.addFiles idGen prevFiles newFiles).validationErrors ≠ []) := by
  intro idGen prevFiles newFiles hlen hnodup
  unfold ThreeDQuotes.addFiles
  cases hv : (ThreeDQuotes.validateMultipleSTLFiles newFiles).isValid with
  | false =>
    have herr : (ThreeDQuotes.validateMultipleSTLFiles newFiles).errors ≠ [] := by
      rw [← List.isEmpty_eq_false,
        ThreeDQuotes.validateMultipleSTLFiles_errors_isEmpty]
      exact hv
    simp only [hv, if_pos]
    exact ⟨⟨hlen, hnodup⟩, fun _ => trivial, fun _ => ⟨trivial, herr⟩⟩
  | true =>
    obtain ⟨hlen10, hnew_nodup, hall⟩ :=
      ThreeDQuotes.validateMultipleSTLFiles_valid_facts newFiles hv
    have hnoex : ¬ ∃ f ∈ newFiles,
        (ThreeDQuotes.validateSTLFile f).isValid = false := by
      rintro ⟨f, hf, hbad⟩
      rw [hall f hf] at hbad
      exact Bool.noConfusion hbad
    simp only [hv, Bool.true_eq_false, if_neg, if_false, ite_false]
    by_cases htot :
        prevFiles.length + (ThreeDQuotes.mkFileMetadata idGen newFiles).length > 10
    · rw [if_pos htot]
      exact ⟨⟨hlen, hnodup⟩, fun _ => rfl, fun hex => absurd hex hnoex⟩
    · rw [if_neg htot]
      by_cases hdup :
          ((ThreeDQuotes.mkFileMetadata idGen newFiles).filter
            (fun f => (prevFiles.map (fun g => g.file.name)).contains
              f.file.name)).isEmpty = false
      · rw [if_pos hdup]
        exact ⟨⟨hlen, hnodup⟩, fun _ => rfl, fun hex => absurd hex hnoex⟩
      · rw [if_neg hdup]
        have hfilter :
            (ThreeDQuotes.mkFileMetadata idGen newFiles).filter
              (fun f => (prevFiles.map (fun g => g.file.name)).contains
                f.file.name) = [] := by
          rw [Bool.not_eq_false] at hdup
          exact List.isEmpty_iff.mp hdup
        rw [List.filter_eq_nil_iff] at hfilter
        refine ⟨⟨?_, ?_⟩, ?_, fun hex => absurd hex hnoex⟩
        · rw [List.length_append]
          exact le_of_not_lt htot
        · rw [List.map_append, List.nodup_append]
          refine ⟨hnodup, ?_, ?_⟩
          · rw [ThreeDQuotes.mkFileMetadata_map_name]
            exact hnew_nodup
          · intro a ha hmem
            rw [ThreeDQuotes.mkFileMetadata_map_name] at hmem
            have : ∃ g ∈ ThreeDQuotes.mkFileMetadata idGen newFiles,
                g.file.name = a := by
              rw [List.mem_map] at hmem
              obtain ⟨f, hf, hfa⟩ := hmem
              have hmm : a ∈ (ThreeDQuotes.mkFileMetadata idGen
                  newFiles).map (fun g => g.file.name) := by
                rw [ThreeDQuotes.mkFileMetadata_map_name, List.mem_map]
                exact ⟨f, hf, hfa⟩
              rw [List.mem_map] at hmm
              obtain ⟨g, hg, hga⟩ := hmm
              exact ⟨g, hg, hga⟩
            obtain ⟨g, hg, hga⟩ := this
            have := hfilter g hg
            rw [hga] at this
            exact this (by simpa using ha)
        · intro hne
          exact absurd rfl hne

theorem C9_upload_list_invariant_witness :
    (((ThreeDQuotes.addFiles (fun i => toString i) []
        [⟨"part.stl", 100⟩]).files.length ≤ 10 ∧
      ((ThreeDQuotes.addFiles (fun i => toString i) []
        [⟨"part.stl", 100⟩]).files.map (fun f => f.file.name)).Nodup) ∧
    ((ThreeDQuotes.addFiles (fun i => toString i) []
        [⟨"part.stl", 100⟩]).validationErrors ≠ [] →
      (ThreeDQuotes.addFiles (fun i => toString i) []
        [⟨"part.stl", 100⟩]).files = []) ∧
    ((∃ f ∈ [(⟨"part.stl", 100⟩ : ThreeDQuotes.JsFile)],
        (ThreeDQuotes.validateSTLFile f).isValid = false) →
      (ThreeDQuotes.addFiles (fun i => toString i) []
        [⟨"part.stl", 100⟩]).files = [] ∧
      (ThreeDQuotes.addFiles (fun i => toString i) []
        [⟨"part.stl", 100⟩]).validationErrors ≠ [])) :=
  C9_upload_list_invariant (fun i => toString i) [] [⟨"part.stl", 100⟩]
    (by simp) (by simp)

/-- C6: the Parser rejects the empty buffer and every buffer below the
minimum viable header size with MalformedInput and never produces a mesh for
them, and the frontend file validator likewise rejects an empty file. -/
theorem C6_parser_rejects_short_buffers :
    (∀ (decode : List ℕ → ℚ) (buf : List ℕ),
      buf.length < ThreeDQuotes.minStlHeaderSize →
      ThreeDQuotes.parseSTL decode buf = .error .MalformedInput) ∧
    (∀ decode : List ℕ → ℚ,
      ThreeDQuotes.parseSTL decode [] = .error .MalformedInput) ∧
    (∀ f : ThreeDQuotes.JsFile, f.size = 0 →
      (ThreeDQuotes.validateSTLFile f).isValid = false) := by
  refine ⟨?_, ?_, ?_⟩
  · intro decode buf h
    simp [ThreeDQuotes.parseSTL, h]
  · intro decode
    simp [ThreeDQuotes.parseSTL, ThreeDQuotes.minStlHeaderSize]
  · intro f h
    simp [ThreeDQuotes.validateSTLFile, h]

theorem C6_parser_rejects_short_buffers_witness :
    ThreeDQuotes.parseSTL (fun _ => 0) [0] = .error .MalformedInput ∧
    (ThreeDQuotes.validateSTLFile ⟨"empty.stl", 0⟩).isValid = false :=
  ⟨C6_parser_rejects_short_buffers.1 (fun _ => 0) [0]
      (by simp [ThreeDQuotes.minStlHeaderSize]),
    C6_parser_rejects_short_buffers.2.2 ⟨"empty.stl", 0⟩ rfl⟩

/-- C7: constraint validation fails with ExceedsBuildVolume exactly when
some bounding-box extent (max minus min per axis) exceeds the configured
maximum for that axis, and such a mesh is never reported as passing with
only a watertightness warning. -/
theorem C7_build_volume_validation :
    ∀ (limits : ThreeDQuotes.BuildVolume) (p : ThreeDQuotes.MeshProperties),
      (ThreeDQuotes.validateConstraints limits p =
          .error .ExceedsBuildVolume ↔
        (p.maxX - p.minX > limits.maxX ∨ p.maxY - p.minY > limits.maxY ∨
          p.maxZ - p.minZ > limits.maxZ)) ∧
      ((p.maxX - p.minX > limits.maxX ∨ p.maxY - p.minY > limits.maxY ∨
          p.maxZ - p.minZ > limits.maxZ) →
        ∀ w : Bool, ThreeDQuotes.validateConstraints limits p ≠ .ok w) := by
  intro limits p
  by_cases hc : p.maxX - p.minX > limits.maxX ∨ p.maxY - p.minY > limits.maxY ∨
      p.maxZ - p.minZ > limits.maxZ
  · constructor
    · simp [ThreeDQuotes.validateConstraints, hc]
    · intro _ w
      simp [ThreeDQuotes.validateConstraints, hc]
  · constructor
    · simp only [ThreeDQuotes.validateConstraints, if_neg hc]
      constructor
      · intro h
        by_cases he : p.triangleCount = 0 ∨ p.volume = 0
        · rw [if_pos he] at h
          exact absurd h (by simp)
        · rw [if_neg he] at h
          exact absurd h (by simp)
      · intro h
        exact absurd h hc
    · intro h w
      exact absurd h hc


theorem C7_build_volume_validation_witness :
    ThreeDQuotes.validateConstraints ThreeDQuotes.hpMjfBuildVolume
      ThreeDQuotes.oversizedMesh = .error .ExceedsBuildVolume ∧
    ThreeDQuotes.validateConstraints ThreeDQuotes.hpMjfBuildVolume
      ThreeDQuotes.oversizedMesh ≠ .ok true :=
  ⟨(C7_build_volume_validation ThreeDQuotes.hpMjfBuildVolume
      ThreeDQuotes.oversizedMesh).1.mpr
      (Or.inl (by norm_num [ThreeDQuotes.oversizedMesh, ThreeDQuotes.hpMjfBuildVolume])),
    (C7_build_volume_validation ThreeDQuotes.hpMjfBuildVolume
      ThreeDQuotes.oversizedMesh).2
      (Or.inl (by norm_num [ThreeDQuotes.oversizedMesh, ThreeDQuotes.hpMjfBuildVolume]))
      true⟩

/-- C10: the frontend quantity validator also enforces an upper bound: every
quantity above 1000 is reported invalid, so the material selector never
accepts such a line for pricing. -/
theorem C10_quantity_upper_bound :
    ∀ qty : ℚ, 1000 < qty →
      (ThreeDQuotes.validateQuantity qty).isValid = false ∧
      ∀ m : String, ThreeDQuotes.fileSelectorUpdate m qty = none := by
  intro qty h
  have hval : (ThreeDQuotes.validateQuantity qty).isValid = false := by
    simp [ThreeDQuotes.validateQuantity, h]
  refine ⟨hval, fun m => ?_⟩
  simp [ThreeDQuotes.fileSelectorUpdate, hval]

theorem C10_quantity_upper_bound_witness :
    (ThreeDQuotes.validateQuantity 1001).isValid = false ∧
    ThreeDQuotes.fileSelectorUpdate "PA12_GREY" 1001 = none :=
  ⟨(C10_quantity_upper_bound 1001 (by norm_num)).1,
    (C10_quantity_upper_bound 1001 (by norm_num)).2 "PA12_GREY"⟩
